import Mathlib

/-!
Shallow embedding of the SMB2 trigger node
(`src/nodes/Smb2Trigger/Smb2Trigger.node.ts`).

The embedded parts are:
* `EVENT_MAP` — the action-code → event-name table (lines 17-21);
* `monitorTick` / `monitorRunFrom` / `monitorRun` — one `setInterval`
  callback of `waitForFileStability` (lines 27-77) and its iteration over a
  trace of sampled file sizes (`none` models a failing `file.open`);
* `processFileChange` / `dispatchBatch` — the per-record dispatcher
  (lines 83-123) and the sequential processing of one notification batch;
* `SessionState` / `sessionMonitorTick` / `closeFunction` — the session
  state owned by `trigger` (`pendingFiles`, live interval timers, the
  subscription and the client) and the teardown closure (lines 391-396).

Sizes are BigInt in the source and are embedded as `Int`
(`previousSize` starts at `BigInt(-1)`).  The emitted JSON value for
`fileSize` is `previousSize.toString()`, a string, so emitted field values
are embedded as `FieldVal` distinguishing strings from integers.
-/

namespace Smb2Trigger

/-- A JSON field value: the source emits `fileSize` as a string
(`previousSize.toString()`), so the embedding distinguishes string from
integer field values. -/
inductive FieldVal where
  | str (s : String)
  | int (n : Int)
deriving DecidableEq

/-- Whether a field value is a JSON integer. -/
def FieldVal.isInt : FieldVal → Bool
  | .int _ => true
  | .str _ => false

/-- One emitted event object, as built at lines 56-61 (stability emission,
with `fileSize`) and lines 118-122 (immediate emission, without). -/
structure EmittedEvent where
  event : String
  filename : String
  path : String
  fileSize : Option FieldVal
deriving DecidableEq

/-- `EVENT_MAP` (lines 17-21): `{1: "created", 2: "deleted", 3: "updated"}`;
any other code is absent (`undefined`). -/
def EVENT_MAP (action : Int) : Option String :=
  if action = 1 then some "created"
  else if action = 2 then some "deleted"
  else if action = 3 then some "updated"
  else none

/-- The mutable state of one `waitForFileStability` invocation:
`previousSize` (initially `BigInt(-1)`) and whether `clearInterval` has run
(`cleared`). -/
structure MonitorState where
  previousSize : Int
  cleared : Bool
deriving DecidableEq

/-- `let previousSize = BigInt(-1)` with the interval live (line 36). -/
def initialMonitorState : MonitorState := { previousSize := -1, cleared := false }

/-- One `setInterval` callback of `waitForFileStability` (lines 38-76).
`sample = none` models `file.open` throwing (the `catch` branch);
`sample = some s` models a successful open reporting `fileSize = s`.
A cleared interval no longer fires, so a tick on a cleared state is a
no-op.  Branches in source order: grow (line 47), stable — emit and clear
(lines 52-62), abort — clear without emitting (lines 64-67); otherwise
nothing happens and polling continues. -/
def monitorTick (path filename : String) (action : Int) (st : MonitorState)
    (sample : Option Int) : MonitorState × List EmittedEvent :=
  if st.cleared then (st, [])
  else
    match sample with
    | none => ({ st with cleared := true }, [])
    | some s =>
      if st.previousSize < s then ({ st with previousSize := s }, [])
      else if st.previousSize = s then
        ({ st with cleared := true },
          [{ event := (EVENT_MAP action).getD "", filename := filename, path := path,
             fileSize := some (.str (toString st.previousSize)) }])
      else if st.previousSize > 0 ∧ s = 0 then ({ st with cleared := true }, [])
      else (st, [])

/-- Iterate `monitorTick` over a trace of samples starting from a given
state, collecting every emitted event in order. -/
def monitorRunFrom (path filename : String) (action : Int) :
    MonitorState → List (Option Int) → MonitorState × List EmittedEvent
  | st, [] => (st, [])
  | st, sample :: rest =>
    let r := monitorTick path filename action st sample
    let r2 := monitorRunFrom path filename action r.1 rest
    (r2.1, r.2 ++ r2.2)

/-- A full monitor run from the initial state (`previousSize = -1`,
interval live). -/
def monitorRun (path filename : String) (action : Int)
    (samples : List (Option Int)) : MonitorState × List EmittedEvent :=
  monitorRunFrom path filename action initialMonitorState samples

/-- The fields of a raw change record that `processFileChange` reads
(`change.action`, `change.filename`; `actionName` is only logged). -/
structure RawChangeRecord where
  action : Int
  filename : String
deriving DecidableEq

/-- The observable outcome of dispatching record(s): the updated
`pendingFiles` array, the events emitted immediately, and the filenames
for which a `waitForFileStability` monitor was started. -/
structure DispatchResult where
  pending : List String
  emitted : List EmittedEvent
  monitorsStarted : List String
deriving DecidableEq

/-- `processFileChange` (lines 83-123).  In source order: drop when
`EVENT_MAP[action] != event` (line 101); skip when
`pendingFiles.includes(filename)` (line 106); when
`waitForCompletion && event === 'created' && !pendingFiles.includes(filename)`
push the filename and start a monitor, no immediate emission (lines
111-115); otherwise emit `{event, filename, path}` with no `fileSize`
(lines 118-122). -/
def processFileChange (change : RawChangeRecord) (event : String)
    (waitForCompletion : Bool) (pending : List String) (path : String) :
    DispatchResult :=
  if EVENT_MAP change.action ≠ some event then ⟨pending, [], []⟩
  else if change.filename ∈ pending then ⟨pending, [], []⟩
  else if waitForCompletion ∧ event = "created" ∧ change.filename ∉ pending then
    ⟨pending ++ [change.filename], [], [change.filename]⟩
  else
    ⟨pending,
      [{ event := (EVENT_MAP change.action).getD "", filename := change.filename,
         path := path, fileSize := none }], []⟩

/-- The `response.data.forEach` loop of the `watchDirectory` callback
(lines 370-382): records of one batch are processed in order against the
shared `pendingFiles`, with emissions and monitor starts accumulated in
order. -/
def dispatchBatch (event : String) (waitForCompletion : Bool) (path : String) :
    List RawChangeRecord → List String → DispatchResult
  | [], pending => ⟨pending, [], []⟩
  | r :: rs, pending =>
    let res := processFileChange r event waitForCompletion pending path
    let rest := dispatchBatch event waitForCompletion path rs res.pending
    ⟨rest.pending, res.emitted ++ rest.emitted,
      res.monitorsStarted ++ rest.monitorsStarted⟩

/-- The session state owned by `trigger` (lines 336-406): the shared
`pendingFiles` array, the live interval timers with their per-monitor
state (one per `waitForFileStability` call), whether the directory watch
subscription is active, and whether the SMB client is open. -/
structure SessionState where
  pending : List String
  monitors : List (String × MonitorState)
  watching : Bool
  clientOpen : Bool
deriving DecidableEq

/-- `closeFunction` (lines 391-396): `pendingFiles.length = 0`, then
`stopFunction()` (unsubscribe), then `client.close()`.  Nothing touches
the interval timers, so `monitors` is unchanged. -/
def closeFunction (s : SessionState) : SessionState :=
  { s with pending := [], watching := false, clientOpen := false }

/-- One interval tick of the `i`-th monitor of a session.  The interval
callback (lines 38-76) never references `pendingFiles`, so `pending` is
unchanged; only the monitor's own state evolves and events may be
emitted. -/
def sessionMonitorTick (path : String) (action : Int) (s : SessionState)
    (i : Nat) (sample : Option Int) : SessionState × List EmittedEvent :=
  match s.monitors.get? i with
  | none => (s, [])
  | some fm =>
    let r := monitorTick path fm.1 action fm.2 sample
    ({ s with monitors := s.monitors.set i (fm.1, r.1) }, r.2)

/-- A cleared interval never fires again: a tick on a cleared monitor state
changes nothing and emits nothing. -/
theorem monitorTick_of_cleared (p f : String) (a : Int) (st : MonitorState)
    (smp : Option Int) (h : st.cleared = true) : monitorTick p f a st smp = (st, []) := by
  simp [monitorTick, h]

/-- The only emitting branch of a tick (the stable branch) also clears the
interval. -/
theorem monitorTick_emits_cleared (p f : String) (a : Int) (st : MonitorState)
    (smp : Option Int) (h : (monitorTick p f a st smp).2 ≠ []) :
    (monitorTick p f a st smp).1.cleared = true := by
  by_cases hc : st.cleared = true
  · simp [monitorTick_of_cleared, hc] at h
  · cases smp with
    | none => simp [monitorTick, hc]
    | some s =>
      simp only [monitorTick, hc, if_false, Bool.not_eq_true] at h ⊢
      split_ifs at h ⊢ with h1 h2 h3 <;> simp_all

/-- Once the interval is cleared, a whole run of further ticks changes
nothing and emits nothing. -/
theorem monitorRunFrom_of_cleared (p f : String) (a : Int) (st : MonitorState)
    (xs : List (Option Int)) (h : st.cleared = true) :
    monitorRunFrom p f a st xs = (st, []) := by
  induction xs with
  | nil => rfl
  | cons x xs ih => simp [monitorRunFrom, monitorTick_of_cleared, h, ih]

/-- A run over an appended trace is the run over the first part followed by
a run over the second from the reached state. -/
theorem monitorRunFrom_append (p f : String) (a : Int) (st : MonitorState)
    (xs ys : List (Option Int)) :
    monitorRunFrom p f a st (xs ++ ys) =
      ((monitorRunFrom p f a (monitorRunFrom p f a st xs).1 ys).1,
        (monitorRunFrom p f a st xs).2 ++
          (monitorRunFrom p f a (monitorRunFrom p f a st xs).1 ys).2) := by
  induction xs generalizing st with
  | nil => simp [monitorRunFrom]
  | cons x xs ih => simp [monitorRunFrom, ih, List.append_assoc]

/-- A run that ends with the interval still live has emitted nothing. -/
theorem monitorRunFrom_emits_or_cleared (p f : String) (a : Int) (st : MonitorState)
    (xs : List (Option Int)) :
    (monitorRunFrom p f a st xs).2 = [] ∨ (monitorRunFrom p f a st xs).1.cleared = true := by
  induction xs generalizing st with
  | nil => exact Or.inl rfl
  | cons x xs ih =>
    by_cases hc : (monitorTick p f a st x).1.cleared = true
    · right
      simp [monitorRunFrom, monitorRunFrom_of_cleared p f a _ xs hc, hc]
    · have he : (monitorTick p f a st x).2 = [] := by
        by_contra h
        exact hc (monitorTick_emits_cleared p f a st x h)
      rcases ih (monitorTick p f a st x).1 with h | h
      · left
        simp [monitorRunFrom, he, h]
      · right
        simp [monitorRunFrom, h]

/-- A record whose filename is already pending is skipped outright: the
pending list, the emissions and the started monitors are all untouched. -/
theorem processFileChange_skip_of_mem (change : RawChangeRecord) (event : String)
    (wfc : Bool) (pending : List String) (path : String)
    (h : change.filename ∈ pending) :
    processFileChange change event wfc pending path = ⟨pending, [], []⟩ := by
  unfold processFileChange
  split_ifs <;> simp_all

/-- Dispatching one record either leaves the pending list unchanged or
appends exactly the record's filename, and only when it was absent. -/
theorem processFileChange_pending_cases (change : RawChangeRecord) (event : String)
    (wfc : Bool) (pending : List String) (path : String) :
    (processFileChange change event wfc pending path).pending = pending ∨
      ((processFileChange change event wfc pending path).pending =
          pending ++ [change.filename] ∧ change.filename ∉ pending) := by
  unfold processFileChange
  split_ifs with h1 h2 h3 <;> simp_all

/-- Dispatching one record preserves duplicate-freeness of the pending
list. -/
theorem processFileChange_nodup (change : RawChangeRecord) (event : String)
    (wfc : Bool) (pending : List String) (path : String) (h : pending.Nodup) :
    (processFileChange change event wfc pending path).pending.Nodup := by
  rcases processFileChange_pending_cases change event wfc pending path with hp | ⟨hp, hm⟩
  · rw [hp]
    exact h
  · rw [hp]
    refine List.Nodup.append h (List.nodup_singleton _) ?_
    intro x hx hxs
    simp only [List.mem_singleton] at hxs
    exact hm (hxs ▸ hx)

/-- Dispatching a whole batch preserves duplicate-freeness of the pending
list. -/
theorem dispatchBatch_nodup (event : String) (wfc : Bool) (path : String)
    (records : List RawChangeRecord) (pending : List String) (h : pending.Nodup) :
    (dispatchBatch event wfc path records pending).pending.Nodup := by
  induction records generalizing pending with
  | nil => exact h
  | cons r rs ih =>
    exact ih _ (processFileChange_nodup r event wfc pending path h)

/-- With the watched kind `updated` and an empty pending list, one record
leaves the pending list empty and emits exactly when its action code
classifies as `updated`. -/
theorem processFileChange_updated_nil (change : RawChangeRecord) (wfc : Bool)
    (path : String) :
    processFileChange change "updated" wfc [] path =
      ⟨[], if EVENT_MAP change.action = some "updated"
            then [{ event := "updated", filename := change.filename, path := path,
                    fileSize := none }] else [], []⟩ := by
  unfold processFileChange
  split_ifs <;> simp_all

/-- With the watched kind `updated`, dispatching any batch from an empty
pending list keeps the pending list empty and emits one event per record
whose action code classifies as `updated`, in order. -/
theorem dispatchBatch_updated_empty_pending (wfc : Bool) (path : String)
    (records : List RawChangeRecord) :
    (dispatchBatch "updated" wfc path records []).pending = [] ∧
      (dispatchBatch "updated" wfc path records []).emitted =
        records.filterMap (fun r =>
          if EVENT_MAP r.action = some "updated"
          then some { event := "updated", filename := r.filename, path := path,
                      fileSize := none }
          else none) := by
  induction records with
  | nil => simp [dispatchBatch]
  | cons r rs ih =>
    have hr := processFileChange_updated_nil r wfc path
    by_cases hm : EVENT_MAP r.action = some "updated"
    · simp [dispatchBatch, hr, hm, List.filterMap_cons, ih]
    · simp [dispatchBatch, hr, hm, List.filterMap_cons, ih]

/-- Claim C1 (the spec says every terminal transition of a monitor removes
the monitored filename from the pending set; the code never does): after a
Stable transition — the tick emitted its event and cleared the interval —
the filename is still in `pendingFiles`, and likewise after an Error
transition (a failing open).  `waitForFileStability` does not even receive
`pendingFiles`; its terminal branches only run `clearInterval`. -/
theorem stability_terminal_keeps_pending :
    (let s0 : SessionState := ⟨["a.txt"], [("a.txt", initialMonitorState)], true, true⟩
     let r1 := sessionMonitorTick "dir" 1 s0 0 (some 100)
     let r2 := sessionMonitorTick "dir" 1 r1.1 0 (some 100)
     r2.2.length = 1 ∧ r2.1.monitors = [("a.txt", ⟨100, true⟩)] ∧
       r2.1.pending = ["a.txt"]) ∧
    (let s0 : SessionState := ⟨["b.txt"], [("b.txt", ⟨100, false⟩)], true, true⟩
     let r1 := sessionMonitorTick "dir" 1 s0 0 none
     r1.1.monitors = [("b.txt", ⟨100, true⟩)] ∧ r1.1.pending = ["b.txt"]) := by
  decide

/-- Claim C2 (the spec says teardown cancels every outstanding monitor so
that no tick fires and nothing is emitted after it returns; the code's
`closeFunction` only empties `pendingFiles`, unsubscribes and closes the
client): after `closeFunction` the pending list is empty, but a monitor
still in Growing state keeps its live interval, and its next tick fires
and still emits a `created` event. -/
theorem teardown_keeps_timers_live :
    (let s := closeFunction ⟨["a.txt"], [("a.txt", ⟨100, false⟩)], true, true⟩
     s.pending = [] ∧ s.monitors = [("a.txt", ⟨100, false⟩)] ∧
       (sessionMonitorTick "dir" 1 s 0 (some 100)).2.length = 1 ∧
       (sessionMonitorTick "dir" 1 s 0 (some 100)).2.map (fun e => e.event) =
         ["created"]) := by
  decide

/-- Claim C3: on any tick where the sampled size equals the recorded
previous size, the monitor clears its interval and emits exactly one
`created` event carrying that size (as its decimal string, since the
source emits `previousSize.toString()`); sample sequence `[100, 100]`
emits exactly once after the second tick and not before, and
`[100, 250, 250]` emits exactly once after the third tick and not
before. -/
theorem stable_tick_emits_once (path filename : String) (st : MonitorState)
    (s : Int) (hc : st.cleared = false) (h : st.previousSize = s) :
    monitorTick path filename 1 st (some s) =
      (⟨s, true⟩, [⟨"created", filename, path, some (.str (toString s))⟩]) ∧
    (monitorRun "d" "f" 1 [some 100, some 100]).2 =
      [⟨"created", "f", "d", some (.str "100")⟩] ∧
    (monitorRun "d" "f" 1 [some 100]).2 = [] ∧
    (monitorRun "d" "f" 1 [some 100, some 250, some 250]).2 =
      [⟨"created", "f", "d", some (.str "250")⟩] ∧
    (monitorRun "d" "f" 1 [some 100, some 250]).2 = [] := by
  refine ⟨?_, by decide, by decide, by decide, by decide⟩
  cases st
  simp_all [monitorTick, EVENT_MAP]

/-- Witness for C3 at a concrete stable tick (previous size 100, sample
100). -/
theorem stable_tick_emits_once_witness :
    monitorTick "d" "f" 1 ⟨100, false⟩ (some 100) =
      (⟨100, true⟩, [⟨"created", "f", "d", some (.str (toString (100 : Int)))⟩]) ∧
    (monitorRun "d" "f" 1 [some 100, some 100]).2 =
      [⟨"created", "f", "d", some (.str "100")⟩] ∧
    (monitorRun "d" "f" 1 [some 100]).2 = [] ∧
    (monitorRun "d" "f" 1 [some 100, some 250, some 250]).2 =
      [⟨"created", "f", "d", some (.str "250")⟩] ∧
    (monitorRun "d" "f" 1 [some 100, some 250]).2 = [] :=
  stable_tick_emits_once "d" "f" ⟨100, false⟩ 100 rfl rfl

/-- Claim C4: for a record classifying as `created` that matches the
watched kind and whose filename is not pending, `waitForCompletion = true`
pushes the filename, starts a monitor and emits nothing immediately, while
`waitForCompletion = false` immediately emits exactly one
`{event: created, filename, path}` with no `fileSize`. -/
theorem created_dispatch_behaviour (r : RawChangeRecord) (event : String)
    (pending : List String) (path : String)
    (hmap : EVENT_MAP r.action = some event) (hev : event = "created")
    (hmem : r.filename ∉ pending) :
    processFileChange r event true pending path =
      ⟨pending ++ [r.filename], [], [r.filename]⟩ ∧
    processFileChange r event false pending path =
      ⟨pending, [⟨"created", r.filename, path, none⟩], []⟩ := by
  subst hev
  unfold processFileChange
  simp [hmap, hmem]

/-- Witness for C4 at action code 1, filename `a`, empty pending list. -/
theorem created_dispatch_behaviour_witness :
    processFileChange ⟨1, "a"⟩ "created" true [] "d" = ⟨["a"], [], ["a"]⟩ ∧
    processFileChange ⟨1, "a"⟩ "created" false [] "d" =
      ⟨[], [⟨"created", "a", "d", none⟩], []⟩ :=
  created_dispatch_behaviour ⟨1, "a"⟩ "created" [] "d" (by decide) rfl (by simp)

/-- Claim C5: starting from a duplicate-free pending list, dispatching any
batch keeps it duplicate-free, so no filename is ever pending more than
once (the membership check at line 106/111 guards every push). -/
theorem pending_at_most_once (event : String) (wfc : Bool) (path : String)
    (records : List RawChangeRecord) (pending : List String) (f : String)
    (h : pending.Nodup) :
    (dispatchBatch event wfc path records pending).pending.Nodup ∧
      (dispatchBatch event wfc path records pending).pending.count f ≤ 1 := by
  have hn := dispatchBatch_nodup event wfc path records pending h
  exact ⟨hn, List.nodup_iff_count_le_one.mp hn f⟩

/-- Witness for C5 on a batch of two `created` records for the same
filename from an empty pending list. -/
theorem pending_at_most_once_witness :
    (dispatchBatch "created" true "d" [⟨1, "a"⟩, ⟨1, "a"⟩] []).pending.Nodup ∧
      (dispatchBatch "created" true "d" [⟨1, "a"⟩, ⟨1, "a"⟩] []).pending.count "a" ≤ 1 :=
  pending_at_most_once "created" true "d" [⟨1, "a"⟩, ⟨1, "a"⟩] [] "a" List.nodup_nil

/-- Claim C6: if a tick fires (the interval is still live) and either the
open fails or the recorded previous size is positive while the sample is
0, the interval is cleared and the whole run — before, at and after that
tick — emits nothing. -/
theorem abort_error_no_emission (p f : String) (a : Int)
    (pre post : List (Option Int)) (bad : Option Int)
    (hun : (monitorRunFrom p f a initialMonitorState pre).1.cleared = false)
    (hbad : bad = none ∨ ∃ s : Int, bad = some s ∧
      0 < (monitorRunFrom p f a initialMonitorState pre).1.previousSize ∧ s = 0) :
    (monitorRun p f a (pre ++ bad :: post)).2 = [] ∧
      (monitorRunFrom p f a initialMonitorState (pre ++ bad :: post)).1.cleared = true := by
  have hr2 : (monitorRunFrom p f a initialMonitorState pre).2 = [] := by
    rcases monitorRunFrom_emits_or_cleared p f a initialMonitorState pre with h | h
    · exact h
    · rw [h] at hun
      exact absurd hun (by simp)
  have htick : monitorTick p f a (monitorRunFrom p f a initialMonitorState pre).1 bad =
      ({ (monitorRunFrom p f a initialMonitorState pre).1 with cleared := true }, []) := by
    rcases hbad with hb | ⟨s, hb, hpos, hs⟩
    · subst hb
      simp [monitorTick, hun]
    · subst hb
      subst hs
      have h1 : ¬ (monitorRunFrom p f a initialMonitorState pre).1.previousSize < 0 := by
        omega
      have h2 : (monitorRunFrom p f a initialMonitorState pre).1.previousSize ≠ 0 := by
        omega
      simp [monitorTick, hun, h1, h2, hpos]
  have hrest : monitorRunFrom p f a
      ({ (monitorRunFrom p f a initialMonitorState pre).1 with cleared := true }) post =
      ({ (monitorRunFrom p f a initialMonitorState pre).1 with cleared := true }, []) :=
    monitorRunFrom_of_cleared p f a _ post rfl
  constructor
  · show (monitorRunFrom p f a initialMonitorState (pre ++ bad :: post)).2 = []
    rw [monitorRunFrom_append]
    simp [monitorRunFrom, htick, hrest, hr2]
  · rw [monitorRunFrom_append]
    simp [monitorRunFrom, htick, hrest]

/-- Witness for C6 on the sample sequence `[100, 0]` (growth then
truncation to empty). -/
theorem abort_error_no_emission_witness :
    (monitorRun "d" "f" 1 ([some 100] ++ some 0 :: [])).2 = [] ∧
      (monitorRunFrom "d" "f" 1 initialMonitorState
        ([some 100] ++ some 0 :: [])).1.cleared = true :=
  abort_error_no_emission "d" "f" 1 [some 100] [] (some 0) (by decide)
    (Or.inr ⟨0, rfl, by decide, rfl⟩)

/-- Claim C7: with the watched kind `updated` the pending list never grows
(only `created` records are pushed), so records of non-`created` kinds are
never de-duplicated: every matching record of a batch emits, and in
particular two `updated` records for the same filename in one batch emit
twice. -/
theorem updated_records_no_dedup (wfc : Bool) (path f : String)
    (records : List RawChangeRecord) :
    (dispatchBatch "updated" wfc path records []).pending = [] ∧
      (dispatchBatch "updated" wfc path records []).emitted =
        records.filterMap (fun r =>
          if EVENT_MAP r.action = some "updated"
          then some { event := "updated", filename := r.filename, path := path,
                      fileSize := none }
          else none) ∧
      (dispatchBatch "updated" wfc path [⟨3, f⟩, ⟨3, f⟩] []).emitted =
        [⟨"updated", f, path, none⟩, ⟨"updated", f, path, none⟩] := by
  refine ⟨(dispatchBatch_updated_empty_pending wfc path records).1,
    (dispatchBatch_updated_empty_pending wfc path records).2, ?_⟩
  simp [dispatchBatch, processFileChange_updated_nil, EVENT_MAP]

/-- Counterexample to C8 as stated: the stable run `[100, 100]` emits one
event whose `fileSize` is present but is the JSON string `"100"`
(`previousSize.toString()` at line 59), not an integer. -/
theorem fileSize_integer_counterexample :
    (monitorRun "d" "f" 1 [some 100, some 100]).2 =
        [⟨"created", "f", "d", some (.str "100")⟩] ∧
      (monitorRun "d" "f" 1 [some 100, some 100]).2.map
        (fun e => e.fileSize.map FieldVal.isInt) = [some false] := by
  exact ⟨by decide, rfl⟩

/-- Claim C8 as amended: an emitted event carries `fileSize` iff it was
produced by stability confirmation, and then `fileSize` is the decimal
string of the stable sampled size (which equals the recorded previous
size); dispatcher-immediate events never carry `fileSize`. -/
theorem fileSize_string_iff_stability :
    (∀ (change : RawChangeRecord) (event : String) (wfc : Bool)
        (pending : List String) (path : String) (e : EmittedEvent),
        e ∈ (processFileChange change event wfc pending path).emitted →
          e.fileSize = none) ∧
      (∀ (p f : String) (a : Int) (st : MonitorState) (smp : Option Int)
          (e : EmittedEvent), e ∈ (monitorTick p f a st smp).2 →
          ∃ s : Int, smp = some s ∧ st.previousSize = s ∧ st.cleared = false ∧
            e.fileSize = some (.str (toString s))) := by
  constructor
  · intro change event wfc pending path e he
    unfold processFileChange at he
    split_ifs at he <;> simp_all
  · intro p f a st smp e he
    obtain ⟨prev, cl⟩ := st
    by_cases hc : cl = true
    · rw [monitorTick_of_cleared p f a _ smp hc] at he
      simp at he
    · have hcf : cl = false := by simpa using hc
      subst hcf
      cases smp with
      | none => simp [monitorTick] at he
      | some s =>
        simp only [monitorTick] at he
        simp at he
        split_ifs at he with h1 h2
        · simp at he
        · simp only [List.mem_singleton] at he
          subst he
          exact ⟨s, rfl, h2, rfl, by simp [h2]⟩
        · simp at he
        · simp at he

/-- Witness for the amended C8 at a stable tick with previous size and
sample 100. -/
theorem fileSize_string_iff_stability_witness :
    ∃ s : Int, (some (100 : Int)) = some s ∧
      (⟨100, false⟩ : MonitorState).previousSize = s ∧
      (⟨100, false⟩ : MonitorState).cleared = false ∧
      (⟨"created", "f", "d", some (.str (toString (100 : Int)))⟩ :
        EmittedEvent).fileSize = some (.str (toString s)) :=
  fileSize_string_iff_stability.2 "d" "f" 1 ⟨100, false⟩ (some 100)
    ⟨"created", "f", "d", some (.str (toString (100 : Int)))⟩ (by decide)

/-- Claim C9: a tick sampling a nonzero size strictly below the recorded
previous size takes no action: the state (previous size and live interval)
is unchanged, nothing is emitted, and the run continues as if the tick had
not happened. -/
theorem shrink_tick_no_action (p f : String) (a : Int) (st : MonitorState)
    (s : Int) (rest : List (Option Int)) (hc : st.cleared = false)
    (h0 : 0 < s) (hlt : s < st.previousSize) :
    monitorTick p f a st (some s) = (st, []) ∧
      monitorRunFrom p f a st (some s :: rest) = monitorRunFrom p f a st rest := by
  have h1 : ¬ st.previousSize < s := not_lt.mpr (le_of_lt hlt)
  have h2 : st.previousSize ≠ s := ne_of_gt hlt
  have h3 : ¬ (st.previousSize > 0 ∧ s = 0) := by
    rintro ⟨-, hs⟩
    omega
  have ht : monitorTick p f a st (some s) = (st, []) := by
    simp [monitorTick, hc, h1, h2, h3]
  refine ⟨ht, ?_⟩
  simp [monitorRunFrom, ht]

/-- Witness for C9 with previous size 200 and sample 100. -/
theorem shrink_tick_no_action_witness :
    monitorTick "d" "f" 1 ⟨200, false⟩ (some 100) = (⟨200, false⟩, []) ∧
      monitorRunFrom "d" "f" 1 ⟨200, false⟩ (some 100 :: []) =
        monitorRunFrom "d" "f" 1 ⟨200, false⟩ [] :=
  shrink_tick_no_action "d" "f" 1 ⟨200, false⟩ 100 [] rfl (by decide) (by decide)

/-- Claim C10: monitor ticks never touch the pending list; dispatching can
only leave it unchanged or append the record's filename; a record whose
filename is pending is skipped entirely (no emission, no new monitor); and
only `closeFunction` empties the list.  So once a filename entered
stability tracking, every later `created` record for it is suppressed for
the rest of the session. -/
theorem pending_never_removed_and_skips :
    (∀ (p : String) (a : Int) (s : SessionState) (i : Nat) (smp : Option Int),
        ((sessionMonitorTick p a s i smp).1).pending = s.pending) ∧
      (∀ (r : RawChangeRecord) (event : String) (wfc : Bool)
          (pending : List String) (path : String),
          (processFileChange r event wfc pending path).pending = pending ∨
            (processFileChange r event wfc pending path).pending =
              pending ++ [r.filename]) ∧
      (∀ (r : RawChangeRecord) (event : String) (wfc : Bool)
          (pending : List String) (path : String),
          r.filename ∈ pending →
            processFileChange r event wfc pending path = ⟨pending, [], []⟩) ∧
      (∀ s : SessionState, (closeFunction s).pending = []) := by
  refine ⟨?_, ?_, processFileChange_skip_of_mem, fun s => rfl⟩
  · intro p a s i smp
    cases hm : s.monitors[i]? with
    | none => simp [sessionMonitorTick, hm]
    | some fm => simp [sessionMonitorTick, hm]
  · intro r event wfc pending path
    rcases processFileChange_pending_cases r event wfc pending path with h | ⟨h, -⟩
    · exact Or.inl h
    · exact Or.inr h

/-- Witness for C10: a `created` record for an already-pending filename is
skipped without emission or a new monitor. -/
theorem pending_never_removed_and_skips_witness :
    processFileChange ⟨1, "a"⟩ "created" true ["a"] "d" = ⟨["a"], [], []⟩ :=
  pending_never_removed_and_skips.2.2.1 ⟨1, "a"⟩ "created" true ["a"] "d" (by simp)

end Smb2Trigger
